import Mathlib

/-!
Verification of the merge-readiness decision engine in
src/github-automation/pkg/automation/logic.go.

The Go code is shallowly embedded: the per-evaluation API responses
(pull request, branch protection, reviews, combined status, check runs)
are modelled as a record of already-fetched results, and `processPR` is
translated statement-by-statement from the Go function of the same name.
An API call that fails is modelled as `none` (or `ProtectionResult.fetchError`
for the branch-protection fetch, which distinguishes a 404 from other errors,
as the Go code does).  Client construction (`getClient`) belongs to the
credential layer that the specification puts out of scope, so it is not
modelled as fallible here.
-/

/-- One submitted review, as returned by ListReviews: the review state string
(GitHub reports these in upper case, e.g. "APPROVED") and the reviewing
user's login. -/
structure Review where
  state : String
  user : String
deriving DecidableEq, Repr

/-- One check run, as returned by ListCheckRunsForRef: name, own status
("completed", "in_progress", ...) and conclusion (meaningful once completed). -/
structure CheckRun where
  name : String
  status : String
  conclusion : String
deriving DecidableEq, Repr

/-- One entry of the legacy combined status: a context name and its state. -/
structure StatusEntry where
  context : String
  state : String
deriving DecidableEq, Repr

/-- The RequiredPullRequestReviews part of a branch protection, carrying the
required approving review count (a Go int). -/
structure RequiredPullRequestReviews where
  requiredApprovingReviewCount : Int
deriving DecidableEq, Repr

/-- The RequiredStatusChecks part of a branch protection; Contexts is a
nullable pointer to a list of context names in Go, hence an Option here. -/
structure RequiredStatusChecks where
  contexts : Option (List String)
deriving DecidableEq, Repr

/-- A branch-protection object: both sub-rules are nullable in Go. -/
structure BranchProtection where
  requiredPullRequestReviews : Option RequiredPullRequestReviews
  requiredStatusChecks : Option RequiredStatusChecks
deriving DecidableEq, Repr

/-- The authoritative pull-request snapshot used by processPR: number, state
string, draft flag, base branch name, head commit SHA. -/
structure PullRequest where
  number : Int
  state : String
  draft : Bool
  baseRef : String
  headSHA : String
deriving DecidableEq, Repr

/-- Outcome of the GetBranchProtection call for the PR's base branch: a
protection object, a 404 (treated by the code as no protection), or any
other error. -/
inductive ProtectionResult where
  | ok : BranchProtection → ProtectionResult
  | notFound : ProtectionResult
  | fetchError : ProtectionResult
deriving DecidableEq, Repr

/-- The responses the Policy and Signal client returns for the (at most one
of each) calls processPR makes for this pull request: branch protection for
the base branch, reviews for the PR number, combined status and check runs
for the head SHA.  none models a failed fetch. -/
structure ClientState where
  protection : ProtectionResult
  reviews : Option (List Review)
  combinedStatuses : Option (List StatusEntry)
  checkRuns : Option (List CheckRun)
deriving DecidableEq, Repr

/-- The decision processPR reaches, one constructor per return point of the
Go function (each Go early return logs the corresponding reason), plus
proceed for the fall-through that issues the merge call. -/
inductive Decision where
  | proceed
  | skipIsDraft
  | skipNotOpen
  | skipPolicyFetchFailed
  | skipReviewsFetchFailed
  | skipInsufficientApprovals
  | skipStatusFetchFailed
  | skipCheckRunsFetchFailed
  | skipMissingRequiredCheck
  | skipFailingRequiredCheck
deriving DecidableEq, Repr

/-- Insertion into the approvers set: Go writes approvers[login] = true into
a map, which adds the key if absent.  The set is modelled as a duplicate-free
list of keys. -/
def insertApprover (s : List String) (u : String) : List String :=
  if u ∈ s then s else s ++ [u]

/-- The loop over reviews in processPR (logic.go lines 182-187): every review
whose state is exactly "APPROVED" inserts its user into the approvers set. -/
def collectApprovers (s : List String) : List Review → List String
  | [] => s
  | r :: rest =>
      collectApprovers (if r.state = "APPROVED" then insertApprover s r.user else s) rest

/-- The approvers set built from the review list, starting empty. -/
def approversOf (reviews : List Review) : List String :=
  collectApprovers [] reviews

/-- approvedCount in processPR: the size of the approvers map. -/
def countApprovers (reviews : List Review) : Nat :=
  (approversOf reviews).length

/-- Point update of the signal map, modelling one Go map assignment. -/
def mapSet (m : String → Option String) (k v : String) : String → Option String :=
  fun x => if x = k then some v else m x

/-- The state a check run contributes (logic.go lines 226-230): its conclusion
if its own status is "completed", else "pending". -/
def checkRunState (r : CheckRun) : String :=
  if r.status = "completed" then r.conclusion else "pending"

/-- First loop building currentStates (logic.go lines 217-219): each combined
status entry maps its context to its state verbatim, later entries last. -/
def seedStatuses (m : String → Option String) : List StatusEntry → (String → Option String)
  | [] => m
  | s :: rest => seedStatuses (mapSet m s.context s.state) rest

/-- Second loop building currentStates (logic.go lines 221-231): each check
run maps its name to checkRunState, overwriting any earlier entry. -/
def overlayCheckRuns (m : String → Option String) : List CheckRun → (String → Option String)
  | [] => m
  | r :: rest => overlayCheckRuns (mapSet m r.name (checkRunState r)) rest

/-- The merged signal map of processPR: seed from combined statuses, then
overlay the check runs. -/
def buildSignalMap (statuses : List StatusEntry) (runs : List CheckRun) :
    String → Option String :=
  overlayCheckRuns (seedStatuses (fun _ => none) statuses) runs

/-- The loop over the required contexts (logic.go lines 234-244): the first
context absent from the map ends the evaluation with the missing-check skip,
the first context present with a state other than "success" ends it with the
failing-check skip; none means the loop ran to completion. -/
def checkContexts (m : String → Option String) : List String → Option Decision
  | [] => none
  | ctx :: rest =>
      match m ctx with
      | none => some Decision.skipMissingRequiredCheck
      | some st =>
          if st ≠ "success" then some Decision.skipFailingRequiredCheck
          else checkContexts m rest

/-- The approval verification block (logic.go lines 172-195): runs only when
a protection with a RequiredPullRequestReviews rule was fetched and the
required count is positive; none means the block did not end the evaluation. -/
def approvalStage (c : ClientState) (protection : Option BranchProtection) :
    Option Decision :=
  match protection with
  | none => none
  | some p =>
      match p.requiredPullRequestReviews with
      | none => none
      | some rpr =>
          if 0 < rpr.requiredApprovingReviewCount then
            match c.reviews with
            | none => some Decision.skipReviewsFetchFailed
            | some reviews =>
                if (countApprovers reviews : Int) < rpr.requiredApprovingReviewCount then
                  some Decision.skipInsufficientApprovals
                else none
          else none

/-- The CI verification block (logic.go lines 198-246): runs only when a
protection with a RequiredStatusChecks rule was fetched; fetches both signal
sources before looking at the context list, and walks the required contexts
only when that list pointer is non-nil. -/
def statusStage (c : ClientState) (protection : Option BranchProtection) :
    Option Decision :=
  match protection with
  | none => none
  | some p =>
      match p.requiredStatusChecks with
      | none => none
      | some rsc =>
          match c.combinedStatuses with
          | none => some Decision.skipStatusFetchFailed
          | some statuses =>
              match c.checkRuns with
              | none => some Decision.skipCheckRunsFetchFailed
              | some runs =>
                  match rsc.contexts with
                  | none => none
                  | some ctxs => checkContexts (buildSignalMap statuses runs) ctxs

/-- The evaluation after the branch-protection fetch has been resolved into
an optional protection object (nil on a 404). -/
def evalWithProtection (c : ClientState) (protection : Option BranchProtection) :
    Decision :=
  match approvalStage c protection with
  | some d => d
  | none =>
      match statusStage c protection with
      | some d => d
      | none => Decision.proceed

/-- processPR (logic.go lines 129-258), translated statement by statement:
draft gate, open gate, branch-protection fetch with 404 treated as no
protection and any other error ending the evaluation, then the approval and
CI blocks, and proceed (the merge call) when nothing ended it earlier. -/
def processPR (pr : PullRequest) (c : ClientState) : Decision :=
  if pr.draft then Decision.skipIsDraft
  else if pr.state ≠ "open" then Decision.skipNotOpen
  else
    match c.protection with
    | ProtectionResult.fetchError => Decision.skipPolicyFetchFailed
    | ProtectionResult.notFound => evalWithProtection c none
    | ProtectionResult.ok p => evalWithProtection c (some p)

/-- The merge call is issued exactly when processPR falls through to the
merge statement (logic.go line 252). -/
def mergeCalled (pr : PullRequest) (c : ClientState) : Bool :=
  processPR pr c == Decision.proceed

/-- handlePullRequestReview (logic.go lines 24-29): a review event is
dispatched to processPR only when the review state is exactly "approved";
the dispatched pull request is the one embedded in the event. -/
structure PullRequestReviewEvent where
  reviewState : String
  pullRequest : PullRequest
deriving DecidableEq, Repr

/-- The pull request handlePullRequestReview passes to processPR, none when
the handler returns without dispatching. -/
def handlePullRequestReview (e : PullRequestReviewEvent) : Option PullRequest :=
  if e.reviewState ≠ "approved" then none
  else some e.pullRequest



/-! ## Declarative characterisation of the evaluation -/

/-- Declarative reading of the approval gate: whenever the fetched policy
carries a required-reviews rule with a positive required count, the review
fetch succeeded and the number of distinct approving users meets the count. -/
def ApprovalOK (c : ClientState) (p : BranchProtection) : Prop :=
  ∀ rpr, p.requiredPullRequestReviews = some rpr →
    0 < rpr.requiredApprovingReviewCount →
      ∃ reviews, c.reviews = some reviews ∧
        rpr.requiredApprovingReviewCount ≤ (countApprovers reviews : Int)

/-- Declarative reading of the CI gate: whenever the fetched policy carries a
required-status-checks rule, both signal fetches succeeded, and every context
named by the rule is mapped to exactly "success" by the merged signal map. -/
def StatusOK (c : ClientState) (p : BranchProtection) : Prop :=
  ∀ rsc, p.requiredStatusChecks = some rsc →
    ∃ statuses runs, c.combinedStatuses = some statuses ∧ c.checkRuns = some runs ∧
      ∀ ctxs, rsc.contexts = some ctxs →
        ∀ ctx ∈ ctxs, buildSignalMap statuses runs ctx = some "success"

/-- The exact conditions under which processPR reaches the merge call. -/
def MergeConditions (pr : PullRequest) (c : ClientState) : Prop :=
  pr.draft = false ∧ pr.state = "open" ∧
  c.protection ≠ ProtectionResult.fetchError ∧
  ∀ p, c.protection = ProtectionResult.ok p → ApprovalOK c p ∧ StatusOK c p

lemma checkContexts_eq_none_iff (m : String → Option String) (ctxs : List String) :
    checkContexts m ctxs = none ↔ ∀ ctx ∈ ctxs, m ctx = some "success" := by
  induction ctxs with
  | nil => simp [checkContexts]
  | cons ctx rest ih =>
      simp only [checkContexts, List.forall_mem_cons]
      cases h : m ctx with
      | none => simp [h]
      | some st =>
          by_cases hst : st = "success"
          · subst hst
            simp [h, ih]
          · simp [h, hst]

lemma checkContexts_ne_some_proceed (m : String → Option String) (ctxs : List String) :
    checkContexts m ctxs ≠ some Decision.proceed := by
  induction ctxs with
  | nil => simp [checkContexts]
  | cons ctx rest ih =>
      simp only [checkContexts]
      cases h : m ctx with
      | none => simp
      | some st =>
          by_cases hst : st = "success"
          · simp [hst, ih]
          · simp [hst]

lemma approvalStage_none (c : ClientState) : approvalStage c none = none := rfl

lemma statusStage_none (c : ClientState) : statusStage c none = none := rfl

lemma approvalStage_ne_some_proceed (c : ClientState) (prot : Option BranchProtection) :
    approvalStage c prot ≠ some Decision.proceed := by
  unfold approvalStage
  cases prot with
  | none => simp
  | some p =>
      cases hr : p.requiredPullRequestReviews with
      | none => simp [hr]
      | some rpr =>
          by_cases hpos : 0 < rpr.requiredApprovingReviewCount
          · cases hrev : c.reviews with
            | none => simp [hr, hpos, hrev]
            | some reviews =>
                by_cases hlt : (countApprovers reviews : Int) < rpr.requiredApprovingReviewCount
                · simp [hr, hpos, hrev, hlt]
                · simp [hr, hpos, hrev, hlt]
          · simp [hr, hpos]

lemma statusStage_ne_some_proceed (c : ClientState) (prot : Option BranchProtection) :
    statusStage c prot ≠ some Decision.proceed := by
  unfold statusStage
  cases prot with
  | none => simp
  | some p =>
      cases hs : p.requiredStatusChecks with
      | none => simp [hs]
      | some rsc =>
          cases hcs : c.combinedStatuses with
          | none => simp [hs, hcs]
          | some statuses =>
              cases hcr : c.checkRuns with
              | none => simp [hs, hcs, hcr]
              | some runs =>
                  cases hctx : rsc.contexts with
                  | none => simp [hs, hcs, hcr, hctx]
                  | some ctxs =>
                      simp only [hs, hcs, hcr, hctx]
                      exact checkContexts_ne_some_proceed (buildSignalMap statuses runs) ctxs

lemma approvalStage_eq_none_iff (c : ClientState) (p : BranchProtection) :
    approvalStage c (some p) = none ↔ ApprovalOK c p := by
  unfold approvalStage ApprovalOK
  cases hr : p.requiredPullRequestReviews with
  | none => simp [hr]
  | some rpr =>
      by_cases hpos : 0 < rpr.requiredApprovingReviewCount
      · cases hrev : c.reviews with
        | none => simp [hr, hpos, hrev]
        | some reviews =>
            by_cases hlt : (countApprovers reviews : Int) < rpr.requiredApprovingReviewCount
            · simp only [hr, hpos, if_true, hrev, hlt]
              simp [hpos, Int.not_le.mpr hlt]
            · simp only [hr, hpos, if_true, hrev, hlt, if_false]
              simp [hpos, Int.not_lt.mp hlt]
      · simp [hr, hpos, Int.not_lt.mp hpos]

lemma statusStage_eq_none_iff (c : ClientState) (p : BranchProtection) :
    statusStage c (some p) = none ↔ StatusOK c p := by
  unfold statusStage StatusOK
  cases hs : p.requiredStatusChecks with
  | none => simp [hs]
  | some rsc =>
      cases hcs : c.combinedStatuses with
      | none => simp [hs, hcs]
      | some statuses =>
          cases hcr : c.checkRuns with
          | none => simp [hs, hcs, hcr]
          | some runs =>
              cases hctx : rsc.contexts with
              | none => simp [hs, hcs, hcr, hctx]
              | some ctxs => simp [hs, hcs, hcr, hctx, checkContexts_eq_none_iff]

lemma evalWithProtection_eq_proceed_iff (c : ClientState) (prot : Option BranchProtection) :
    evalWithProtection c prot = Decision.proceed ↔
      approvalStage c prot = none ∧ statusStage c prot = none := by
  unfold evalWithProtection
  cases ha : approvalStage c prot with
  | some d =>
      simp only [ha]
      constructor
      · intro hdp
        exact absurd (hdp ▸ ha) (approvalStage_ne_some_proceed c prot)
      · intro h
        exact absurd h.1 (by simp [ha])
  | none =>
      cases hst : statusStage c prot with
      | some d =>
          simp only [hst]
          constructor
          · intro hdp
            exact absurd (hdp ▸ hst) (statusStage_ne_some_proceed c prot)
          · intro h
            exact absurd h.2 (by simp [hst])
      | none => simp [hst]

lemma processPR_eq_proceed_iff (pr : PullRequest) (c : ClientState) :
    processPR pr c = Decision.proceed ↔ MergeConditions pr c := by
  unfold processPR MergeConditions
  by_cases hd : pr.draft = true
  · simp [hd]
  · by_cases ho : pr.state = "open"
    · cases hp : c.protection with
      | fetchError => simp [hd, ho, hp]
      | notFound =>
          simp [hd, ho, hp, evalWithProtection_eq_proceed_iff,
            approvalStage_none, statusStage_none]
      | ok p =>
          simp [hd, ho, hp, evalWithProtection_eq_proceed_iff,
            approvalStage_eq_none_iff, statusStage_eq_none_iff]
    · simp [hd, ho]

/-! ## Approval counting -/

/-- The users of the reviews whose listed state is exactly "APPROVED",
in review order, possibly with repeats. -/
def approvedUsersList (reviews : List Review) : List String :=
  (reviews.filter (fun r => r.state == "APPROVED")).map Review.user

lemma mem_insertApprover (s : List String) (u x : String) :
    x ∈ insertApprover s u ↔ x ∈ s ∨ x = u := by
  unfold insertApprover
  by_cases h : u ∈ s
  · simp only [if_pos h]
    constructor
    · exact Or.inl
    · rintro (hx | rfl)
      · exact hx
      · exact h
  · simp [h]

lemma nodup_insertApprover (s : List String) (u : String) (hs : s.Nodup) :
    (insertApprover s u).Nodup := by
  unfold insertApprover
  by_cases h : u ∈ s
  · simpa [h] using hs
  · simp [h, List.nodup_append, hs, List.disjoint_singleton]

lemma mem_collectApprovers (reviews : List Review) (s : List String) (x : String) :
    x ∈ collectApprovers s reviews ↔ x ∈ s ∨ x ∈ approvedUsersList reviews := by
  induction reviews generalizing s with
  | nil => simp [collectApprovers, approvedUsersList]
  | cons r rest ih =>
      simp only [collectApprovers, approvedUsersList, List.filter_cons]
      by_cases hr : r.state = "APPROVED"
      · simp [hr, ih, mem_insertApprover, approvedUsersList, or_assoc]
      · simp [hr, ih, approvedUsersList]

lemma nodup_collectApprovers (reviews : List Review) (s : List String) (hs : s.Nodup) :
    (collectApprovers s reviews).Nodup := by
  induction reviews generalizing s with
  | nil => simpa [collectApprovers]
  | cons r rest ih =>
      simp only [collectApprovers]
      by_cases hr : r.state = "APPROVED"
      · simp only [if_pos hr]
        exact ih _ (nodup_insertApprover s r.user hs)
      · simp only [if_neg hr]
        exact ih _ hs

lemma countApprovers_eq_card (reviews : List Review) :
    countApprovers reviews = (approvedUsersList reviews).toFinset.card := by
  have hnd : (approversOf reviews).Nodup :=
    nodup_collectApprovers reviews [] List.nodup_nil
  have htf : (approversOf reviews).toFinset = (approvedUsersList reviews).toFinset := by
    ext x
    simpa [List.mem_toFinset] using mem_collectApprovers reviews [] x
  calc countApprovers reviews
      = (approversOf reviews).length := rfl
    _ = (approversOf reviews).toFinset.card := (List.toFinset_card_of_nodup hnd).symm
    _ = (approvedUsersList reviews).toFinset.card := by rw [htf]

/-! ## Characterising the merged signal map -/

/-- The last combined-status entry carrying the given context name, the
entry whose state a Go map built by iterated assignment would report. -/
def lastStatusNamed (statuses : List StatusEntry) (x : String) : Option StatusEntry :=
  match statuses with
  | [] => none
  | s :: rest =>
      match lastStatusNamed rest x with
      | some s2 => some s2
      | none => if s.context = x then some s else none

/-- The last check run carrying the given name. -/
def lastRunNamed (runs : List CheckRun) (x : String) : Option CheckRun :=
  match runs with
  | [] => none
  | r :: rest =>
      match lastRunNamed rest x with
      | some r2 => some r2
      | none => if r.name = x then some r else none

lemma seedStatuses_apply (statuses : List StatusEntry) (m : String → Option String)
    (x : String) :
    seedStatuses m statuses x =
      match lastStatusNamed statuses x with
      | some s => some s.state
      | none => m x := by
  induction statuses generalizing m with
  | nil => rfl
  | cons s rest ih =>
      simp only [seedStatuses, lastStatusNamed, ih]
      cases h : lastStatusNamed rest x with
      | some s2 => simp
      | none =>
          simp only [mapSet]
          by_cases hcx : s.context = x
          · simp [hcx]
          · simp [hcx, Ne.symm hcx]

lemma overlayCheckRuns_apply (runs : List CheckRun) (m : String → Option String)
    (x : String) :
    overlayCheckRuns m runs x =
      match lastRunNamed runs x with
      | some r => some (checkRunState r)
      | none => m x := by
  induction runs generalizing m with
  | nil => rfl
  | cons r rest ih =>
      simp only [overlayCheckRuns, lastRunNamed, ih]
      cases h : lastRunNamed rest x with
      | some r2 => simp
      | none =>
          simp only [mapSet]
          by_cases hcx : r.name = x
          · simp [hcx]
          · simp [hcx, Ne.symm hcx]

lemma buildSignalMap_apply (statuses : List StatusEntry) (runs : List CheckRun)
    (x : String) :
    buildSignalMap statuses runs x =
      match lastRunNamed runs x with
      | some r => some (checkRunState r)
      | none =>
          match lastStatusNamed statuses x with
          | some s => some s.state
          | none => none := by
  unfold buildSignalMap
  rw [overlayCheckRuns_apply]
  cases lastRunNamed runs x with
  | some r => rfl
  | none => rw [seedStatuses_apply]

/-! ## Reaching the status-check loop -/

lemma checkContexts_first (m : String → Option String) (pre post : List String)
    (ctx : String) (hpre : ∀ x ∈ pre, m x = some "success") :
    (m ctx = none →
      checkContexts m (pre ++ ctx :: post) = some Decision.skipMissingRequiredCheck) ∧
    (∀ st, m ctx = some st → st ≠ "success" →
      checkContexts m (pre ++ ctx :: post) = some Decision.skipFailingRequiredCheck) := by
  induction pre with
  | nil =>
      constructor
      · intro h
        simp [checkContexts, h]
      · intro st h hst
        simp [checkContexts, h, hst]
  | cons a rest ih =>
      have ha : m a = some "success" := hpre a (by simp)
      have hrest : ∀ x ∈ rest, m x = some "success" := fun x hx => hpre x (by simp [hx])
      constructor
      · intro h
        simp only [List.cons_append, checkContexts, ha]
        simpa using (ih hrest).1 h
      · intro st h hst
        simp only [List.cons_append, checkContexts, ha]
        simpa using (ih hrest).2 st h hst

lemma processPR_statusStage (pr : PullRequest) (c : ClientState) (p : BranchProtection)
    (hd : pr.draft = false) (ho : pr.state = "open")
    (hp : c.protection = ProtectionResult.ok p) (hap : ApprovalOK c p) :
    processPR pr c =
      match statusStage c (some p) with
      | some d => d
      | none => Decision.proceed := by
  have h1 : processPR pr c = evalWithProtection c (some p) := by
    simp [processPR, hd, ho, hp]
  rw [h1]
  unfold evalWithProtection
  rw [(approvalStage_eq_none_iff c p).mpr hap]

/-! ## Claim C1 -/

/-- Conditions of claim C1 exactly as stated: open and not draft, the
branch-protection fetch succeeded or was a 404, the distinct-approver count
meets the required count whenever that count is positive, and every required
status-check context is present in the merged signal map with state exactly
"success"; nothing is said about the signal fetches when no context is
required. -/
def SpecStatusOK (c : ClientState) (p : BranchProtection) : Prop :=
  ∀ rsc, p.requiredStatusChecks = some rsc →
    ∀ ctxs, rsc.contexts = some ctxs →
      ∀ ctx ∈ ctxs, ∃ statuses runs,
        c.combinedStatuses = some statuses ∧ c.checkRuns = some runs ∧
        buildSignalMap statuses runs ctx = some "success"

/-- The full condition list of claim C1 as stated. -/
def SpecMergeConditions (pr : PullRequest) (c : ClientState) : Prop :=
  pr.draft = false ∧ pr.state = "open" ∧
  c.protection ≠ ProtectionResult.fetchError ∧
  ∀ p, c.protection = ProtectionResult.ok p → ApprovalOK c p ∧ SpecStatusOK c p

/-- An open, non-draft PR whose policy carries a required-status-checks rule
with a nil context list, evaluated while the combined-status fetch fails. -/
def c1pr : PullRequest :=
  { number := 1, state := "open", draft := false, baseRef := "main", headSHA := "a1" }

def c1prot : BranchProtection :=
  { requiredPullRequestReviews := none
  , requiredStatusChecks := some { contexts := none } }

def c1client : ClientState :=
  { protection := ProtectionResult.ok c1prot
  , reviews := some []
  , combinedStatuses := none
  , checkRuns := some [] }

/-- Claim C1 as stated is false: at this input every condition it lists
holds (there is no required approval and no required context, so the
approval and status conditions are vacuous), yet the merge call is not
issued, because the failed combined-status fetch ends the evaluation. -/
theorem claim_C1_counterexample :
    SpecMergeConditions c1pr c1client ∧ mergeCalled c1pr c1client = false := by
  constructor
  · refine ⟨rfl, rfl, by simp [c1client], ?_⟩
    intro p hp
    have hpe : c1prot = p := by
      have : ProtectionResult.ok c1prot = ProtectionResult.ok p := hp
      exact ProtectionResult.ok.inj this
    subst hpe
    constructor
    · intro rpr hrpr
      exact absurd hrpr (by simp [c1prot])
    · intro rsc hrsc ctxs hctxs
      have he : rsc = { contexts := none } := by
        have : some ({ contexts := none } : RequiredStatusChecks) = some rsc := by
          simpa [c1prot] using hrsc
        exact (Option.some.inj this).symm
      subst he
      exact absurd hctxs (by simp)
  · decide

/-- Claim C1 (amended): the merge call is issued if and only if the PR is
open and not a draft, the branch-protection fetch succeeded or returned
not-found, the distinct-approver count meets the required approving-review
count whenever the policy requires more than zero, and — whenever the policy
contains a required-status-checks rule — both signal fetches succeeded and
every required context is present in the merged signal map with state
exactly "success". -/
theorem claim_C1_merge_iff (pr : PullRequest) (c : ClientState) :
    mergeCalled pr c = true ↔ MergeConditions pr c := by
  unfold mergeCalled
  rw [beq_iff_eq]
  exact processPR_eq_proceed_iff pr c

/-! ## Claim C2 -/

/-- The most recently observed review state of the given user, the review
list being in observation order. -/
def lastReviewStateOf (reviews : List Review) (u : String) : Option String :=
  ((reviews.filter (fun r => r.user == u)).map Review.state).getLast?

/-- The approval count exactly as claim C2 states it: the number of distinct
users whose most recently observed review state is approved. -/
def specApprovalCount (reviews : List Review) : Nat :=
  ((reviews.map Review.user).toFinset.filter
      (fun u => lastReviewStateOf reviews u = some "APPROVED")).card

/-- A user who approved and then requested changes. -/
def c2reviews : List Review :=
  [ { state := "APPROVED", user := "alice" },
    { state := "CHANGES_REQUESTED", user := "alice" } ]

/-- Claim C2 as stated is false: with an approval followed by the same
user's changes-requested review, the code still counts the user (the loop
only ever adds users whose review state is "APPROVED" and never removes
them), while the most-recent-state reading counts nobody. -/
theorem claim_C2_counterexample :
    countApprovers c2reviews = 1 ∧ specApprovalCount c2reviews = 0 ∧
      "alice" ∈ approversOf c2reviews := by
  refine ⟨by decide, by decide, by decide⟩

/-- Claim C2 (amended): the approval count equals the number of distinct
users having at least one review whose listed state is exactly "APPROVED";
a later review by the same user (for example changes requested) does not
remove the user from the count. -/
theorem claim_C2_count (reviews : List Review) :
    countApprovers reviews = (approvedUsersList reviews).toFinset.card :=
  countApprovers_eq_card reviews

/-! ## Claim C3 -/

/-- Claim C3: the merged signal map reports, for each context name, the last
check run of that name when one exists — its conclusion if that run's status
is "completed" and "pending" otherwise — and else the state of the last
combined-status entry of that name verbatim; hence a check-run entry always
overwrites a combined-status entry of the same name. -/
theorem claim_C3_signal_precedence (statuses : List StatusEntry)
    (runs : List CheckRun) (x : String) :
    buildSignalMap statuses runs x =
      match lastRunNamed runs x with
      | some r => some (if r.status = "completed" then r.conclusion else "pending")
      | none =>
          match lastStatusNamed statuses x with
          | some s => some s.state
          | none => none := by
  rw [buildSignalMap_apply]
  cases lastRunNamed runs x with
  | some r => simp [checkRunState]
  | none => rfl

/-! ## Claim C4 -/

/-- A pull request that is both a draft and not open. -/
def c4pr : PullRequest :=
  { number := 2, state := "closed", draft := true, baseRef := "main", headSHA := "a2" }

def c4client : ClientState :=
  { protection := ProtectionResult.notFound
  , reviews := some [], combinedStatuses := some [], checkRuns := some [] }

/-- Claim C4 as stated is false on a closed draft: the draft gate runs
first, so the evaluation ends with the is-draft skip even though the state
is not "open", where the claim demands the not-open skip. -/
theorem claim_C4_counterexample :
    c4pr.state ≠ "open" ∧ processPR c4pr c4client ≠ Decision.skipNotOpen ∧
      processPR c4pr c4client = Decision.skipIsDraft := by
  refine ⟨by decide, by decide, by decide⟩

/-- Claim C4 (amended): a draft PR ends with the is-draft skip regardless of
policy or signal state; a non-draft PR whose state is not "open" ends with
the not-open skip; in both cases no merge call is made. -/
theorem claim_C4_draft_closed (pr : PullRequest) (c : ClientState) :
    (pr.draft = true → processPR pr c = Decision.skipIsDraft) ∧
    (pr.draft = false → pr.state ≠ "open" → processPR pr c = Decision.skipNotOpen) ∧
    (pr.draft = true ∨ pr.state ≠ "open" → mergeCalled pr c = false) := by
  refine ⟨?_, ?_, ?_⟩
  · intro h
    simp [processPR, h]
  · intro hd ho
    simp [processPR, hd, ho]
  · intro h
    rcases h with h | h
    · simp [mergeCalled, processPR, h]
    · by_cases hd : pr.draft = true
      · simp [mergeCalled, processPR, hd]
      · simp [mergeCalled, processPR, hd, h]

/-- Witness for claim C4 at concrete inputs. -/
theorem claim_C4_witness :
    processPR c4pr c4client = Decision.skipIsDraft ∧
      processPR { c4pr with draft := false } c4client = Decision.skipNotOpen ∧
      mergeCalled c4pr c4client = false := by
  refine ⟨(claim_C4_draft_closed c4pr c4client).1 rfl,
    (claim_C4_draft_closed { c4pr with draft := false } c4client).2.1 rfl (by decide),
    (claim_C4_draft_closed c4pr c4client).2.2 (Or.inl rfl)⟩

/-! ## Claim C5 -/

/-- Claim C5: a 404 on the branch-protection fetch is treated as no policy,
so an open, non-draft PR with no branch protection proceeds to the merge
call; any other branch-protection fetch error ends the evaluation with no
merge call (with the policy-fetch-failed skip when the PR gates passed). -/
theorem claim_C5_policy_not_found (pr : PullRequest) (c : ClientState) :
    (c.protection = ProtectionResult.notFound → pr.draft = false →
      pr.state = "open" →
        processPR pr c = Decision.proceed ∧ mergeCalled pr c = true) ∧
    (c.protection = ProtectionResult.fetchError →
      mergeCalled pr c = false ∧
        (pr.draft = false → pr.state = "open" →
          processPR pr c = Decision.skipPolicyFetchFailed)) := by
  constructor
  · intro hp hd ho
    have h1 : processPR pr c = Decision.proceed := by
      simp [processPR, hd, ho, hp, evalWithProtection, approvalStage, statusStage]
    exact ⟨h1, by simp [mergeCalled, h1]⟩
  · intro hp
    constructor
    · by_cases hd : pr.draft = true
      · simp [mergeCalled, processPR, hd]
      · by_cases ho : pr.state = "open"
        · simp [mergeCalled, processPR, hd, ho, hp]
        · simp [mergeCalled, processPR, hd, ho]
    · intro hd ho
      simp [processPR, hd, ho, hp]

/-- A PR with no branch protection configured: every other fetch may even
fail, the evaluation still proceeds. -/
def c5pr : PullRequest :=
  { number := 3, state := "open", draft := false, baseRef := "main", headSHA := "a3" }

def c5clientNotFound : ClientState :=
  { protection := ProtectionResult.notFound
  , reviews := none, combinedStatuses := none, checkRuns := none }

def c5clientErr : ClientState :=
  { protection := ProtectionResult.fetchError
  , reviews := some [], combinedStatuses := some [], checkRuns := some [] }

/-- Witness for claim C5 at concrete inputs. -/
theorem claim_C5_witness :
    processPR c5pr c5clientNotFound = Decision.proceed ∧
      mergeCalled c5pr c5clientErr = false ∧
      processPR c5pr c5clientErr = Decision.skipPolicyFetchFailed := by
  refine ⟨((claim_C5_policy_not_found c5pr c5clientNotFound).1 rfl rfl rfl).1,
    ((claim_C5_policy_not_found c5pr c5clientErr).2 rfl).1,
    ((claim_C5_policy_not_found c5pr c5clientErr).2 rfl).2 rfl rfl⟩

/-! ## Claim C6 -/

/-- Claim C6: once the evaluation reaches a required context — the PR is
open and not a draft, a policy with a required-status-checks rule was
fetched, the approval gate passed, both signal fetches succeeded, and every
earlier required context is "success" — an absent context ends the
evaluation with the missing-required-check skip, and a present but
non-"success" context ends it with the failing-required-check skip; in
either case no merge call is made. -/
theorem claim_C6_required_contexts
    (pr : PullRequest) (c : ClientState) (p : BranchProtection)
    (rsc : RequiredStatusChecks) (statuses : List StatusEntry)
    (runs : List CheckRun) (pre post : List String) (ctx : String)
    (hd : pr.draft = false) (ho : pr.state = "open")
    (hp : c.protection = ProtectionResult.ok p)
    (hap : ApprovalOK c p)
    (hrsc : p.requiredStatusChecks = some rsc)
    (hctxs : rsc.contexts = some (pre ++ ctx :: post))
    (hcs : c.combinedStatuses = some statuses)
    (hcr : c.checkRuns = some runs)
    (hpre : ∀ x ∈ pre, buildSignalMap statuses runs x = some "success") :
    (buildSignalMap statuses runs ctx = none →
      processPR pr c = Decision.skipMissingRequiredCheck ∧ mergeCalled pr c = false) ∧
    (∀ st, buildSignalMap statuses runs ctx = some st → st ≠ "success" →
      processPR pr c = Decision.skipFailingRequiredCheck ∧ mergeCalled pr c = false) := by
  have hred : processPR pr c =
      match checkContexts (buildSignalMap statuses runs) (pre ++ ctx :: post) with
      | some d => d
      | none => Decision.proceed := by
    rw [processPR_statusStage pr c p hd ho hp hap]
    simp [statusStage, hrsc, hcs, hcr, hctxs]
  constructor
  · intro h
    have hc := (checkContexts_first (buildSignalMap statuses runs) pre post ctx hpre).1 h
    have h2 : processPR pr c = Decision.skipMissingRequiredCheck := by
      rw [hred, hc]
    exact ⟨h2, by simp [mergeCalled, h2]⟩
  · intro st h hst
    have hc := (checkContexts_first (buildSignalMap statuses runs) pre post ctx hpre).2 st h hst
    have h2 : processPR pr c = Decision.skipFailingRequiredCheck := by
      rw [hred, hc]
    exact ⟨h2, by simp [mergeCalled, h2]⟩

/-- A policy requiring contexts "ci/a" and "ci/b" where "ci/a" succeeded
and "ci/b" appears in neither signal source. -/
def c6pr : PullRequest :=
  { number := 4, state := "open", draft := false, baseRef := "main", headSHA := "a4" }

def c6prot : BranchProtection :=
  { requiredPullRequestReviews := none
  , requiredStatusChecks := some { contexts := some ["ci/a", "ci/b"] } }

def c6client : ClientState :=
  { protection := ProtectionResult.ok c6prot
  , reviews := some []
  , combinedStatuses := some [{ context := "ci/a", state := "success" }]
  , checkRuns := some [] }

/-- Witness for claim C6 at a concrete input: the missing context "ci/b"
ends the evaluation with the missing-required-check skip. -/
theorem claim_C6_witness :
    processPR c6pr c6client = Decision.skipMissingRequiredCheck ∧
      mergeCalled c6pr c6client = false :=
  (claim_C6_required_contexts c6pr c6client c6prot
      { contexts := some ["ci/a", "ci/b"] }
      [{ context := "ci/a", state := "success" }] [] ["ci/a"] [] "ci/b"
      rfl rfl rfl
      (by intro rpr h; simp [c6prot] at h)
      rfl rfl rfl rfl
      (by decide)).1 (by decide)

/-! ## Claim C7 -/

/-- A review event whose review state is not "approved". -/
def c7pr : PullRequest :=
  { number := 5, state := "open", draft := false, baseRef := "main", headSHA := "a5" }

def c7event : PullRequestReviewEvent :=
  { reviewState := "changes_requested", pullRequest := c7pr }

/-- Claim C7 as stated is false: a ReviewSubmitted event whose review state
is not "approved" is not dispatched at all — the handler returns before
resolving any pull request. -/
theorem claim_C7_counterexample :
    handlePullRequestReview c7event = none := by decide

/-- Claim C7 (amended): a ReviewSubmitted event whose review state is
"approved" resolves to exactly the pull request embedded in the event and
that pull request is dispatched for evaluation; any other review state is
not dispatched. -/
theorem claim_C7_review_dispatch (e : PullRequestReviewEvent) :
    (e.reviewState = "approved" → handlePullRequestReview e = some e.pullRequest) ∧
    (e.reviewState ≠ "approved" → handlePullRequestReview e = none) := by
  constructor
  · intro h
    simp [handlePullRequestReview, h]
  · intro h
    simp [handlePullRequestReview, h]

def c7approvedEvent : PullRequestReviewEvent :=
  { reviewState := "approved", pullRequest := c7pr }

/-- Witness for claim C7 at a concrete input. -/
theorem claim_C7_witness :
    handlePullRequestReview c7approvedEvent = some c7pr :=
  (claim_C7_review_dispatch c7approvedEvent).1 rfl

/-! ## Claim C8 -/

/-- Claim C8: the evaluator is deterministic in the fetched remote state —
for fixed client responses, two evaluations of the same pull request produce
the same decision, agree on whether to proceed, and the merge action is a
function of that decision. -/
theorem claim_C8_deterministic (pr : PullRequest) (c : ClientState)
    (d₁ d₂ : Decision) (h₁ : d₁ = processPR pr c) (h₂ : d₂ = processPR pr c) :
    d₁ = d₂ ∧ ((d₁ = Decision.proceed) ↔ (d₂ = Decision.proceed)) ∧
      mergeCalled pr c = decide (d₁ = Decision.proceed) := by
  subst h₁
  subst h₂
  refine ⟨rfl, Iff.rfl, ?_⟩
  by_cases h : processPR pr c = Decision.proceed
  · simp [mergeCalled, h]
  · simp [mergeCalled, h]

def c8pr : PullRequest :=
  { number := 6, state := "open", draft := false, baseRef := "main", headSHA := "a6" }

def c8client : ClientState :=
  { protection := ProtectionResult.notFound
  , reviews := none, combinedStatuses := none, checkRuns := none }

/-- Witness for claim C8 at a concrete input. -/
theorem claim_C8_witness :
    processPR c8pr c8client = processPR c8pr c8client ∧
      ((processPR c8pr c8client = Decision.proceed) ↔
        (processPR c8pr c8client = Decision.proceed)) ∧
      mergeCalled c8pr c8client = decide (processPR c8pr c8client = Decision.proceed) :=
  claim_C8_deterministic c8pr c8client (processPR c8pr c8client)
    (processPR c8pr c8client) rfl rfl

/-! ## Claim C9 -/

/-- Claim C9: review-state comparisons are case sensitive and use different
casings at the two interfaces — a review contributes to the approval count
only when its listed state is exactly the uppercase "APPROVED", and a
submitted-review event triggers an evaluation only when its state is exactly
the lowercase "approved"; any other casing is ignored at each point. -/
theorem claim_C9_case_sensitivity (r : Review) (rest : List Review)
    (e : PullRequestReviewEvent) :
    (r.state ≠ "APPROVED" → countApprovers (r :: rest) = countApprovers rest) ∧
    (countApprovers [r] = if r.state = "APPROVED" then 1 else 0) ∧
    (e.reviewState ≠ "approved" → handlePullRequestReview e = none) ∧
    (handlePullRequestReview e ≠ none ↔ e.reviewState = "approved") := by
  refine ⟨?_, ?_, ?_, ?_⟩
  · intro h
    simp [countApprovers, approversOf, collectApprovers, h]
  · by_cases h : r.state = "APPROVED"
    · simp [countApprovers, approversOf, collectApprovers, insertApprover, h]
    · simp [countApprovers, approversOf, collectApprovers, h]
  · intro h
    simp [handlePullRequestReview, h]
  · by_cases h : e.reviewState = "approved"
    · simp [handlePullRequestReview, h]
    · simp [handlePullRequestReview, h]

def c9pr : PullRequest :=
  { number := 7, state := "open", draft := false, baseRef := "main", headSHA := "a7" }

/-- An event carrying the uppercase state, which the handler ignores. -/
def c9event : PullRequestReviewEvent :=
  { reviewState := "APPROVED", pullRequest := c9pr }

/-- Witness for claim C9 at concrete inputs: the lowercase review state does
not count toward approvals, and the uppercase event state does not trigger
a dispatch. -/
theorem claim_C9_witness :
    countApprovers [{ state := "approved", user := "bob" }] = 0 ∧
      handlePullRequestReview c9event = none := by
  constructor
  · have h := (claim_C9_case_sensitivity { state := "approved", user := "bob" } []
      c9event).2.1
    rw [if_neg (by decide)] at h
    exact h
  · exact (claim_C9_case_sensitivity { state := "approved", user := "bob" } []
      c9event).2.2.1 (by decide)

/-! ## Claim C10 -/

/-- Claim C10: whenever the fetched policy contains a required-status-checks
rule, the evaluation consults both signal fetches even when the rule's
context list is absent or empty — a failed combined-status fetch or a failed
check-run fetch ends the evaluation with no merge call — and when both
fetches succeed and the context list is absent or empty the status check
passes vacuously and the evaluation proceeds. -/
theorem claim_C10_signal_fetches (pr : PullRequest) (c : ClientState)
    (p : BranchProtection) (rsc : RequiredStatusChecks)
    (hd : pr.draft = false) (ho : pr.state = "open")
    (hp : c.protection = ProtectionResult.ok p) (hap : ApprovalOK c p)
    (hrsc : p.requiredStatusChecks = some rsc) :
    (c.combinedStatuses = none →
      processPR pr c = Decision.skipStatusFetchFailed ∧ mergeCalled pr c = false) ∧
    (∀ statuses, c.combinedStatuses = some statuses → c.checkRuns = none →
      processPR pr c = Decision.skipCheckRunsFetchFailed ∧ mergeCalled pr c = false) ∧
    (∀ statuses runs, c.combinedStatuses = some statuses → c.checkRuns = some runs →
      rsc.contexts = none ∨ rsc.contexts = some [] →
      processPR pr c = Decision.proceed ∧ mergeCalled pr c = true) := by
  have hred := processPR_statusStage pr c p hd ho hp hap
  refine ⟨?_, ?_, ?_⟩
  · intro hcs
    have h2 : processPR pr c = Decision.skipStatusFetchFailed := by
      rw [hred]
      simp [statusStage, hrsc, hcs]
    exact ⟨h2, by simp [mergeCalled, h2]⟩
  · intro statuses hcs hcr
    have h2 : processPR pr c = Decision.skipCheckRunsFetchFailed := by
      rw [hred]
      simp [statusStage, hrsc, hcs, hcr]
    exact ⟨h2, by simp [mergeCalled, h2]⟩
  · intro statuses runs hcs hcr hctx
    have h2 : processPR pr c = Decision.proceed := by
      rw [hred]
      rcases hctx with hctx | hctx
      · simp [statusStage, hrsc, hcs, hcr, hctx]
      · simp [statusStage, hrsc, hcs, hcr, hctx, checkContexts]
    exact ⟨h2, by simp [mergeCalled, h2]⟩

/-- A policy with a required-status-checks rule whose context list is empty,
evaluated while the combined-status fetch fails. -/
def c10pr : PullRequest :=
  { number := 8, state := "open", draft := false, baseRef := "main", headSHA := "a8" }

def c10prot : BranchProtection :=
  { requiredPullRequestReviews := none
  , requiredStatusChecks := some { contexts := some [] } }

def c10client : ClientState :=
  { protection := ProtectionResult.ok c10prot
  , reviews := some []
  , combinedStatuses := none
  , checkRuns := some [] }

/-- Witness for claim C10 at a concrete input: even with an empty context
list, the failed combined-status fetch ends the evaluation. -/
theorem claim_C10_witness :
    processPR c10pr c10client = Decision.skipStatusFetchFailed ∧
      mergeCalled c10pr c10client = false :=
  (claim_C10_signal_fetches c10pr c10client c10prot { contexts := some [] }
      rfl rfl rfl (by intro rpr h; simp [c10prot] at h) rfl).1 rfl
